import Mathlib

/-!
Verification of the `Signal` component (`src/aiohttp/signals.py`), a list-like
registry of receiver callables with registration-time validation and a
sequential `send` dispatch implemented as `yield from receiver(**kwargs)`.

Shallow embedding notes:
* A Python receiver is modelled by its observable attributes: an identity
  `rid` used in dispatch traces, the result of `asyncio.iscoroutinefunction`,
  its keyword-bindable parameters (name, has-default) plus a `**kwargs` flag
  (what `inspect.signature(...).bind` consults), and a `behavior` describing
  what happens when `send` invokes it with given keyword arguments.
* Python `assert` statements and `if __debug__:` blocks are both removed when
  the interpreter runs with `-O` (`__debug__ = False`), so every registration
  check is modelled as gated on a `debug` flag.
* Exceptions are modelled with `Except`; a raised exception leaves the signal
  as it was, which the `Except` encoding gives by construction since all
  validation precedes mutation in the source.
-/

set_option autoImplicit false

/-- Keyword arguments of a `send` call: an association list from argument
names to opaque values (values are opaque to the dispatcher, so we use `Nat`). -/
def KwArgs := List (String × Nat)
deriving DecidableEq, Repr

/-- What happens when the dispatcher evaluates `yield from receiver(**kwargs)`
for one receiver:
* `ok` — the call returns a generator/iterable that runs to completion;
* `raise c` — the receiver raises exception `c` (at call time or while its
  returned generator is being driven);
* `plainValue` — the call itself completes but returns a plain non-iterable
  value (e.g. `None` from an ordinary function), so the subsequent
  `yield from` raises `TypeError`. -/
inductive Outcome where
  | ok : Outcome
  | raise : Nat → Outcome
  | plainValue : Outcome
deriving DecidableEq, Repr

/-- Errors that `send` can propagate to its caller: the `TypeError` produced
by `yield from` on a non-iterable value, or an arbitrary receiver-raised
exception identified by a code. -/
inductive PyErr where
  | typeError : PyErr
  | userErr : Nat → PyErr
deriving DecidableEq, Repr

/-- A receiver callable, modelled by the attributes the `Signal` code
observes. `params` lists the keyword-bindable parameters of its signature in
order, each with a flag telling whether it has a default value;
`hasVarKeyword` tells whether the signature has a `**kwargs` catch-all. -/
structure Receiver where
  rid : Nat
  isCoroutineFunction : Bool
  params : List (String × Bool)
  hasVarKeyword : Bool
  behavior : KwArgs → Outcome

/-- The `Signal` class state: the frozenset of recognized parameter names
(`self._parameters`, stored deduplicated) and the ordered receiver list
(`self._receivers`). -/
structure Signal where
  parameters : List String
  receivers : List Receiver

/-- Construction `Signal(parameters)`: `self._parameters = frozenset(parameters)`
(deduplicated), `self._receivers = []`. -/
def Signal.new (ps : List String) : Signal :=
  ⟨ps.dedup, []⟩

/-- Whether `receiver` can take a keyword argument named `p`: either some
named parameter matches or the signature has `**kwargs`. -/
def accepts (r : Receiver) (p : String) : Bool :=
  r.hasVarKeyword || r.params.any (fun q => q.1 == p)

/-- Success of `signature(receiver).bind(**{p: None for p in parameters})`:
every recognized parameter name must be accepted as a keyword, and every
parameter of the receiver without a default must receive a value, i.e. occur
among the recognized names. -/
def bindOk (r : Receiver) (ps : List String) : Bool :=
  ps.all (fun p => accepts r p) &&
    r.params.all (fun q => q.2 || ps.contains q.1)

/-- Errors raised by the registration and indexing operations:
`InvalidReceiverKind` is the `AssertionError` of
`assert not asyncio.iscoroutinefunction(receiver)`, `SignatureMismatch` the
`TypeError` of a failing `signature(...).bind`, `IndexOutOfRange` the
`IndexError` of list indexing, and `DispatchFailed` marks a straight-line
program aborted by an exception escaping `send`. -/
inductive SigError where
  | InvalidReceiverKind : SigError
  | SignatureMismatch : SigError
  | IndexOutOfRange : SigError
  | DispatchFailed : SigError
deriving DecidableEq, Repr

/-- Python sequence index normalization: a negative index counts back from
the end. -/
def normIdx (i : Int) (n : Nat) : Int :=
  if i < 0 then i + n else i

/-- Whether index `i` is in bounds for a sequence of length `n`, after
normalization. -/
def validIdx (i : Int) (n : Nat) : Bool :=
  decide (0 ≤ normIdx i n ∧ normIdx i n < (n : Int))

/-- The clamped position at which `list.insert(i, x)` places `x`: a negative
index counts from the end and is clamped to the start, an index beyond the
end is clamped to the end. -/
def insertPos (i : Int) (n : Nat) : Nat :=
  if i < 0 then (i + n).toNat else min i.toNat n

/-- Method `__len__`. -/
def Signal.len (s : Signal) : Nat :=
  s.receivers.length

/-- Method `__getitem__`: `self._receivers[index]`, raising `IndexError` when
the normalized index is out of bounds. -/
def Signal.getitem (s : Signal) (i : Int) : Except SigError Receiver :=
  let k := normIdx i s.receivers.length
  if 0 ≤ k then
    match s.receivers.get? k.toNat with
    | some r => .ok r
    | none => .error .IndexOutOfRange
  else .error .IndexOutOfRange

/-- Method `__setitem__`: assert the receiver is not a coroutine function,
bind-check the signature when `__debug__`, then `self._receivers[index] = receiver`. -/
def Signal.setitem (s : Signal) (debug : Bool) (i : Int) (r : Receiver) :
    Except SigError Signal :=
  if debug && r.isCoroutineFunction then .error .InvalidReceiverKind
  else if debug && !bindOk r s.parameters then .error .SignatureMismatch
  else
    let k := normIdx i s.receivers.length
    if 0 ≤ k ∧ k < (s.receivers.length : Int) then
      .ok ⟨s.parameters, s.receivers.set k.toNat r⟩
    else .error .IndexOutOfRange

/-- Method `__delitem__`: `del self._receivers[index]` removes the element at
the normalized index, shifting the following elements down. -/
def Signal.delitem (s : Signal) (i : Int) : Except SigError Signal :=
  let k := normIdx i s.receivers.length
  if 0 ≤ k ∧ k < (s.receivers.length : Int) then
    .ok ⟨s.parameters,
      s.receivers.take k.toNat ++ s.receivers.drop (k.toNat + 1)⟩
  else .error .IndexOutOfRange

/-- Method `insert`: same validation as `__setitem__`, then
`self._receivers.insert(index, receiver)`, which clamps the index and never
raises `IndexError`. -/
def Signal.insert (s : Signal) (debug : Bool) (i : Int) (r : Receiver) :
    Except SigError Signal :=
  if debug && r.isCoroutineFunction then .error .InvalidReceiverKind
  else if debug && !bindOk r s.parameters then .error .SignatureMismatch
  else
    let pos := insertPos i s.receivers.length
    .ok ⟨s.parameters, s.receivers.take pos ++ r :: s.receivers.drop pos⟩

/-- Method `append`: same validation, then `self._receivers.append(receiver)`. -/
def Signal.append (s : Signal) (debug : Bool) (r : Receiver) :
    Except SigError Signal :=
  if debug && r.isCoroutineFunction then .error .InvalidReceiverKind
  else if debug && !bindOk r s.parameters then .error .SignatureMismatch
  else .ok ⟨s.parameters, s.receivers ++ [r]⟩

/-- Method `clear`: `self._receivers.clear()`. -/
def Signal.clear (s : Signal) : Signal :=
  ⟨s.parameters, []⟩

/-- Observable events of a dispatch: a receiver being invoked with keyword
arguments, and a receiver's call (including its returned generator)
completing. -/
inductive Event where
  | call : Nat → KwArgs → Event
  | done : Nat → Event
deriving DecidableEq, Repr

/-- The loop body of `send`: `for receiver in self._receivers: yield from
receiver(**kwargs)`. Returns the ordered trace of events together with the
first exception to escape, if any; receivers after a failing one are never
reached. In the `plainValue` case the receiver itself ran to completion and
the `TypeError` is raised afterwards by `yield from`. -/
def sendFrom : List Receiver → KwArgs → List Event × Option PyErr
  | [], _ => ([], none)
  | r :: rs, kw =>
    match r.behavior kw with
    | .ok =>
      let rest := sendFrom rs kw
      (.call r.rid kw :: .done r.rid :: rest.1, rest.2)
    | .raise c => ([.call r.rid kw], some (.userErr c))
    | .plainValue => ([.call r.rid kw, .done r.rid], some .typeError)

/-- Method `send(**kwargs)`. It only reads `self._receivers`; the signal
state is not modified by dispatch. -/
def Signal.send (s : Signal) (kw : KwArgs) : List Event × Option PyErr :=
  sendFrom s.receivers kw

/-- The trace `send` produces for a list of receivers that all complete
normally. -/
def okTrace (rs : List Receiver) (kw : KwArgs) : List Event :=
  rs.flatMap (fun r => [.call r.rid kw, .done r.rid])

/-- A straight-line program over one signal, for stating properties of
operation sequences. -/
inductive Op where
  | appendOp : Receiver → Op
  | insertOp : Int → Receiver → Op
  | setOp : Int → Receiver → Op
  | delOp : Int → Op
  | clearOp : Op
  | getOp : Int → Op
  | sendOp : KwArgs → Op

/-- Effect of one operation on the signal state. Read-only operations
(`getOp`, `sendOp`) leave the state unchanged; any raised exception aborts
the program. -/
def applyOp (debug : Bool) (s : Signal) : Op → Except SigError Signal
  | .appendOp r => s.append debug r
  | .insertOp i r => s.insert debug i r
  | .setOp i r => s.setitem debug i r
  | .delOp i => s.delitem i
  | .clearOp => .ok s.clear
  | .getOp i =>
    match s.getitem i with
    | .ok _ => .ok s
    | .error e => .error e
  | .sendOp kw =>
    match (s.send kw).2 with
    | none => .ok s
    | some _ => .error .DispatchFailed

/-- Run a straight-line program, stopping at the first exception. -/
def runOps (debug : Bool) : Signal → List Op → Except SigError Signal
  | s, [] => .ok s
  | s, op :: ops =>
    match applyOp debug s op with
    | .ok s' => runOps debug s' ops
    | .error e => .error e

/-- Whether an operation is one of `Append`, `Insert`, `Delete`. -/
def isAID : Op → Bool
  | .appendOp _ => true
  | .insertOp _ _ => true
  | .delOp _ => true
  | _ => false

/-- Number of `Append`/`Insert` operations in a program. -/
def countIns (ops : List Op) : Nat :=
  ops.countP (fun op =>
    match op with
    | .appendOp _ => true
    | .insertOp _ _ => true
    | _ => false)

/-- Number of `Delete` operations in a program. -/
def countDel (ops : List Op) : Nat :=
  ops.countP (fun op =>
    match op with
    | .delOp _ => true
    | _ => false)

/-- Example receiver `A`: an ordinary generator-style callable with required
parameters `name` and `value`, completing normally. -/
def recvA : Receiver :=
  ⟨1, false, [("name", false), ("value", false)], false, fun _ => .ok⟩

/-- Example receiver `B`: like `recvA`, with a different identity. -/
def recvB : Receiver :=
  ⟨2, false, [("name", false), ("value", false)], false, fun _ => .ok⟩

/-- Example receiver that raises exception `7` whenever invoked. -/
def recvRaise : Receiver :=
  ⟨3, false, [("name", false), ("value", false)], false, fun _ => .raise 7⟩

/-- Example receiver that is a plain synchronous function returning a
non-iterable value (e.g. `None`). -/
def recvPlain : Receiver :=
  ⟨4, false, [("name", false), ("value", false)], false, fun _ => .plainValue⟩

/-- Example receiver that is a coroutine function
(`asyncio.iscoroutinefunction` is true for it). -/
def recvCoro : Receiver :=
  ⟨5, true, [("name", false), ("value", false)], false, fun _ => .ok⟩

/-- Example receiver whose signature is missing the required recognized
parameter `value`. -/
def recvMissing : Receiver :=
  ⟨6, false, [("name", false)], false, fun _ => .ok⟩

/-- Example signal with recognized parameters `name`, `value` and receivers
`A`, `B`. -/
def sigNV : Signal :=
  ⟨["name", "value"], [recvA, recvB]⟩

/-- Example signal whose second receiver raises. -/
def sigRaise : Signal :=
  ⟨["name", "value"], [recvA, recvRaise, recvB]⟩

/-- Example signal whose first receiver is a plain non-generator function. -/
def sigPlain : Signal :=
  ⟨["name", "value"], [recvPlain, recvB]⟩

/-- Example keyword arguments `name="x"(0), value=1`. -/
def kwNV : KwArgs :=
  [("name", 0), ("value", 1)]

/-- Example program of `Append`/`Insert`/`Delete` operations. -/
def opsAID : List Op :=
  [.appendOp recvA, .appendOp recvB, .insertOp 0 recvA, .delOp 1]

/-- Example program mixing mutation, read and dispatch operations. -/
def opsMixed : List Op :=
  [.appendOp recvA, .sendOp kwNV, .getOp 0, .setOp 0 recvB, .clearOp]

theorem sendFrom_ok_prefix (kw : KwArgs) (pre rest : List Receiver)
    (h : ∀ p ∈ pre, p.behavior kw = .ok) :
    sendFrom (pre ++ rest) kw =
      (okTrace pre kw ++ (sendFrom rest kw).1, (sendFrom rest kw).2) := by
  induction pre with
  | nil => simp [okTrace]
  | cons p ps ih =>
    have hp : p.behavior kw = .ok := h p (List.mem_cons_self _ _)
    have hps : ∀ q ∈ ps, q.behavior kw = .ok :=
      fun q hq => h q (List.mem_cons_of_mem _ hq)
    simp [sendFrom, hp, ih hps, okTrace]

/-- C1: with N registered receivers that all complete normally, `send`
produces exactly the trace `call r₁, done r₁, call r₂, done r₂, …` over the
receiver list in registration order and propagates no error.  The trace shape
shows each receiver is invoked exactly once, with the same keyword arguments
`kw`, that receiver `i+1` is invoked only after receiver `i` has completed,
and that `send` finishes only after the last receiver completes. -/
theorem send_invokes_all_in_order (s : Signal) (kw : KwArgs)
    (h : ∀ r ∈ s.receivers, r.behavior kw = .ok) :
    s.send kw = (okTrace s.receivers kw, none) := by
  have h0 := sendFrom_ok_prefix kw s.receivers [] h
  simpa [Signal.send, sendFrom] using h0

/-- Witness for C1 on a concrete signal with receivers `A`, `B`. -/
theorem send_invokes_all_in_order_witness :
    sigNV.send kwNV =
      ([.call 1 kwNV, .done 1, .call 2 kwNV, .done 2], none) :=
  (send_invokes_all_in_order sigNV kwNV (by decide)).trans (by decide)

/-- C2: if the receivers are `pre ++ r :: post` where every receiver of
`pre` completes normally and `r` raises exception `c`, then `send` propagates
exactly `c` to its caller, the trace contains the completed runs of `pre`
followed by the invocation of `r` and nothing else — so no receiver of
`post` is ever invoked and the already-performed effects of `pre` stay in
the trace (no rollback). -/
theorem send_aborts_on_raise (s : Signal) (kw : KwArgs)
    (pre post : List Receiver) (r : Receiver) (c : Nat)
    (hs : s.receivers = pre ++ r :: post)
    (hpre : ∀ p ∈ pre, p.behavior kw = .ok)
    (hr : r.behavior kw = .raise c) :
    s.send kw = (okTrace pre kw ++ [.call r.rid kw], some (.userErr c)) := by
  have h0 := sendFrom_ok_prefix kw pre (r :: post) hpre
  simp [Signal.send, hs, h0, sendFrom, hr]

/-- Witness for C2: receiver #2 of 3 raises, #3 is never invoked, #1's
events remain, and the error surfaces unchanged. -/
theorem send_aborts_on_raise_witness :
    sigRaise.send kwNV =
      ([.call 1 kwNV, .done 1, .call 3 kwNV], some (.userErr 7)) :=
  (send_aborts_on_raise sigRaise kwNV [recvA] [recvB] recvRaise 7 rfl
    (by decide) (by decide)).trans (by decide)

/-- C3 counterexample: a plain synchronous callable that runs to completion
but returns a non-iterable value does NOT let `send` proceed to the next
receiver: `yield from` raises `TypeError` and receiver `2` is never invoked,
refuting the claim that the return value need not be an awaitable or
iterable. -/
theorem send_plain_value_counterexample :
    (sigPlain.send kwNV).2 = some .typeError ∧
      Event.call 2 kwNV ∉ (sigPlain.send kwNV).1 := by decide

/-- C3 amended: `send` invokes a registered plain callable with the given
keyword arguments, but because it delegates to the returned value with
`yield from`, it proceeds to the next receiver only when that value is an
iterable that runs to completion; when the call returns a non-iterable
value, `send` raises `TypeError` right after the call returns and invokes no
further receiver. -/
theorem send_requires_iterable_return (s : Signal) (kw : KwArgs)
    (pre post : List Receiver) (r : Receiver)
    (hs : s.receivers = pre ++ r :: post)
    (hpre : ∀ p ∈ pre, p.behavior kw = .ok) :
    (r.behavior kw = .plainValue →
      s.send kw =
        (okTrace pre kw ++ [.call r.rid kw, .done r.rid], some .typeError)) ∧
    (r.behavior kw = .ok →
      s.send kw =
        (okTrace pre kw ++ .call r.rid kw :: .done r.rid :: (sendFrom post kw).1,
          (sendFrom post kw).2)) := by
  have h0 := sendFrom_ok_prefix kw pre (r :: post) hpre
  constructor
  · intro hr
    simp [Signal.send, hs, h0, sendFrom, hr]
  · intro hr
    simp [Signal.send, hs, h0, sendFrom, hr]

/-- Witness for the amended C3: a plain-value receiver aborts dispatch with
`TypeError`; a generator-returning receiver lets dispatch continue. -/
theorem send_requires_iterable_return_witness :
    sigPlain.send kwNV = ([.call 4 kwNV, .done 4], some .typeError) ∧
    sigNV.send kwNV = ([.call 1 kwNV, .done 1, .call 2 kwNV, .done 2], none) :=
  ⟨((send_requires_iterable_return sigPlain kwNV [] [recvB] recvPlain rfl
      (by decide)).1 (by decide)).trans (by decide),
   ((send_requires_iterable_return sigNV kwNV [recvA] [] recvB rfl
      (by decide)).2 (by decide)).trans (by decide)⟩

/-- C4: in the default validating build, registering a coroutine function
through `Set`, `Insert` or `Append` fails with `InvalidReceiverKind`
(the assertion fires before the signature check, so the receiver's parameter
signature is irrelevant); the error encoding means the signal state is
untouched. -/
theorem register_coroutine_rejected (s : Signal) (i : Int) (r : Receiver)
    (h : r.isCoroutineFunction = true) :
    s.setitem true i r = .error .InvalidReceiverKind ∧
    s.insert true i r = .error .InvalidReceiverKind ∧
    s.append true r = .error .InvalidReceiverKind := by
  refine ⟨?_, ?_, ?_⟩ <;> simp [Signal.setitem, Signal.insert, Signal.append, h]

/-- Witness for C4 at a concrete coroutine receiver. -/
theorem register_coroutine_rejected_witness :
    sigNV.setitem true 0 recvCoro = .error .InvalidReceiverKind ∧
    sigNV.insert true 0 recvCoro = .error .InvalidReceiverKind ∧
    sigNV.append true recvCoro = .error .InvalidReceiverKind :=
  register_coroutine_rejected sigNV 0 recvCoro rfl

theorem bindOk_of_params_match (r : Receiver) (ps : List String)
    (h1 : r.params.map Prod.fst ⊆ ps) (h2 : ps ⊆ r.params.map Prod.fst) :
    bindOk r ps = true := by
  simp only [bindOk, Bool.and_eq_true, List.all_eq_true]
  constructor
  · intro p hp
    rcases List.mem_map.mp (h2 hp) with ⟨q, hq, hqp⟩
    simp only [accepts, Bool.or_eq_true, List.any_eq_true]
    exact Or.inr ⟨q, hq, by simp [hqp]⟩
  · intro q hq
    have hmem : q.1 ∈ ps := h1 (List.mem_map_of_mem Prod.fst hq)
    simp [hmem]

/-- C5: in the validating build (`debug = true`), for a non-coroutine
receiver: if the bind of placeholder keyword arguments for every recognized
parameter name fails (`bindOk = false`, i.e. the receiver cannot be called
as `receiver(p1=_, …, pn=_)`), `Append`, `Insert` and `Set` all fail with
`SignatureMismatch`; if the receiver's parameter names are exactly the
recognized set, `Append` and `Insert` succeed and `Set` succeeds at any
valid index, registering the receiver. -/
theorem register_signature_validation (s : Signal) (i : Int) (r : Receiver) :
    (r.isCoroutineFunction = false → bindOk r s.parameters = false →
      s.append true r = .error .SignatureMismatch ∧
      s.insert true i r = .error .SignatureMismatch ∧
      s.setitem true i r = .error .SignatureMismatch) ∧
    (r.isCoroutineFunction = false →
      r.params.map Prod.fst ⊆ s.parameters →
      s.parameters ⊆ r.params.map Prod.fst →
      s.append true r = .ok ⟨s.parameters, s.receivers ++ [r]⟩ ∧
      s.insert true i r = .ok ⟨s.parameters,
        s.receivers.take (insertPos i s.receivers.length) ++
          r :: s.receivers.drop (insertPos i s.receivers.length)⟩ ∧
      (validIdx i s.receivers.length = true →
        s.setitem true i r = .ok ⟨s.parameters,
          s.receivers.set (normIdx i s.receivers.length).toNat r⟩)) := by
  constructor
  · intro hc hb
    refine ⟨?_, ?_, ?_⟩ <;>
      simp [Signal.append, Signal.insert, Signal.setitem, hc, hb]
  · intro hc h1 h2
    have hb := bindOk_of_params_match r s.parameters h1 h2
    refine ⟨?_, ?_, ?_⟩
    · simp [Signal.append, hc, hb]
    · simp [Signal.insert, hc, hb]
    · intro hv
      simp only [validIdx, Bool.and_eq_true, decide_eq_true_eq] at hv
      simp [Signal.setitem, hc, hb, hv.1, hv.2]

/-- Witness for C5: a receiver missing the recognized parameter `value`
is rejected with `SignatureMismatch`; a receiver accepting exactly
`name, value` is appended. -/
theorem register_signature_validation_witness :
    sigNV.append true recvMissing = .error .SignatureMismatch ∧
    sigNV.append true recvA = .ok ⟨sigNV.parameters, sigNV.receivers ++ [recvA]⟩ :=
  ⟨((register_signature_validation sigNV 0 recvMissing).1 rfl (by decide)).1,
   ((register_signature_validation sigNV 0 recvA).2 rfl (by decide) (by decide)).1⟩

/-- C6 counterexample: in an optimized build (`__debug__ = False`, modelled
as `debug = false`) Python strips `assert` statements as well, so appending
a coroutine function succeeds instead of failing with
`InvalidReceiverKind`, refuting the claim that only the signature check is
disabled. -/
theorem optimized_coroutine_accepted_counterexample :
    (Signal.new ["name"]).append false recvCoro = .ok ⟨["name"], [recvCoro]⟩ ∧
    (Signal.new ["name"]).append false recvCoro ≠ .error .InvalidReceiverKind := by
  constructor
  · rfl
  · intro h
    rw [show (Signal.new ["name"]).append false recvCoro
        = .ok ⟨["name"], [recvCoro]⟩ from rfl] at h
    exact Except.noConfusion h

/-- C6 amended: when validation is compiled out (`debug = false`), both
checks are disabled — the `assert` on `iscoroutinefunction` is removed along
with the `if __debug__` signature bind — so `Append` and `Insert` succeed
for any receiver, coroutine functions included, and `Set` can only fail
with an out-of-range error, never with `InvalidReceiverKind` or
`SignatureMismatch`. -/
theorem optimized_build_skips_all_validation (s : Signal) (i : Int) (r : Receiver) :
    s.append false r = .ok ⟨s.parameters, s.receivers ++ [r]⟩ ∧
    s.insert false i r = .ok ⟨s.parameters,
      s.receivers.take (insertPos i s.receivers.length) ++
        r :: s.receivers.drop (insertPos i s.receivers.length)⟩ ∧
    s.setitem false i r ≠ .error .InvalidReceiverKind ∧
    s.setitem false i r ≠ .error .SignatureMismatch := by
  refine ⟨rfl, rfl, ?_, ?_⟩ <;>
    · simp only [Signal.setitem, Bool.false_and]
      split
      · simp_all
      · split <;> simp

theorem insertPos_le (i : Int) (n : Nat) : insertPos i n ≤ n := by
  unfold insertPos
  split
  · omega
  · exact min_le_right _ _

theorem append_ok_receivers (s : Signal) (debug : Bool) (r : Receiver)
    (t : Signal) (h : s.append debug r = .ok t) :
    t.receivers = s.receivers ++ [r] := by
  unfold Signal.append at h
  split at h
  · exact Except.noConfusion h
  · split at h
    · exact Except.noConfusion h
    · cases h; rfl

theorem insert_ok_receivers (s : Signal) (debug : Bool) (i : Int)
    (r : Receiver) (t : Signal) (h : s.insert debug i r = .ok t) :
    t.receivers = s.receivers.take (insertPos i s.receivers.length) ++
      r :: s.receivers.drop (insertPos i s.receivers.length) := by
  unfold Signal.insert at h
  split at h
  · exact Except.noConfusion h
  · split at h
    · exact Except.noConfusion h
    · cases h; rfl

theorem insert_shape_length (l : List Receiver) (pos : Nat) (r : Receiver)
    (hpos : pos ≤ l.length) :
    (l.take pos ++ r :: l.drop pos).length = l.length + 1 := by
  simp only [List.length_append, List.length_take, List.length_drop,
    List.length_cons]
  omega

theorem delitem_ok_length (s : Signal) (i : Int) (t : Signal)
    (h : s.delitem i = .ok t) :
    s.receivers.length = t.receivers.length + 1 := by
  simp only [Signal.delitem] at h
  split at h
  case isTrue hg =>
    obtain ⟨hg1, hg2⟩ := hg
    cases h
    simp only [List.length_append, List.length_take, List.length_drop]
    omega
  case isFalse => exact Except.noConfusion h

theorem runOps_length_aid (debug : Bool) (ops : List Op) :
    ∀ s t : Signal, (∀ op ∈ ops, isAID op = true) →
      runOps debug s ops = .ok t →
      t.receivers.length + countDel ops = s.receivers.length + countIns ops := by
  induction ops with
  | nil =>
    intro s t _ h
    simp only [runOps] at h
    cases h
    simp [countDel, countIns]
  | cons op ops ih =>
    intro s t haid hrun
    simp only [runOps] at hrun
    cases hop : applyOp debug s op with
    | error e => rw [hop] at hrun; exact Except.noConfusion hrun
    | ok s1 =>
      rw [hop] at hrun
      have hrec := ih s1 t (fun o ho => haid o (List.mem_cons_of_mem _ ho)) hrun
      have hophd := haid op (List.mem_cons_self _ _)
      cases op with
      | appendOp r =>
        have hr := append_ok_receivers s debug r s1 hop
        have hlen : s1.receivers.length = s.receivers.length + 1 := by
          rw [hr]; simp
        simp [countDel, countIns, List.countP_cons] at hrec ⊢
        omega
      | insertOp j r =>
        have hr := insert_ok_receivers s debug j r s1 hop
        have hlen : s1.receivers.length = s.receivers.length + 1 := by
          rw [hr]
          exact insert_shape_length _ _ _ (insertPos_le j s.receivers.length)
        simp [countDel, countIns, List.countP_cons] at hrec ⊢
        omega
      | delOp j =>
        have hlen := delitem_ok_length s j s1 hop
        simp [countDel, countIns, List.countP_cons] at hrec ⊢
        omega
      | setOp j r => simp [isAID] at hophd
      | clearOp => simp [isAID] at hophd
      | getOp j => simp [isAID] at hophd
      | sendOp kw => simp [isAID] at hophd

/-- C7: first, over any straight-line program of `Append`/`Insert`/`Delete`
operations run from a fresh signal, the final length plus the number of
deletions equals the number of insertions; second, `Delete(i)` at a valid
nonnegative index removes exactly the receiver at `i`, shifting the
following receivers down one position; third, `Insert(i, r)` with
`i ≤ length` and a receiver passing validation places `r` before position
`i`, shifting the subsequent receivers up one position. -/
theorem list_ops_length_and_shifts (debug : Bool) (ps : List String)
    (ops : List Op) (t : Signal) (s : Signal) (i : Nat) (r : Receiver) :
    ((∀ op ∈ ops, isAID op = true) →
      runOps debug (Signal.new ps) ops = .ok t →
      t.receivers.length + countDel ops = countIns ops) ∧
    (i < s.receivers.length →
      s.delitem i = .ok ⟨s.parameters,
        s.receivers.take i ++ s.receivers.drop (i + 1)⟩) ∧
    (i ≤ s.receivers.length → r.isCoroutineFunction = false →
      bindOk r s.parameters = true →
      s.insert true i r = .ok ⟨s.parameters,
        s.receivers.take i ++ r :: s.receivers.drop i⟩) := by
  refine ⟨?_, ?_, ?_⟩
  · intro haid hrun
    have h := runOps_length_aid debug ops (Signal.new ps) t haid hrun
    simpa [Signal.new] using h
  · intro hi
    have hnorm : normIdx (i : Int) s.receivers.length = (i : Int) := by
      unfold normIdx
      rw [if_neg (by omega)]
    simp only [Signal.delitem, hnorm]
    rw [if_pos ⟨by omega, by exact_mod_cast hi⟩]
    simp
  · intro hi hc hb
    have hpos : insertPos (i : Int) s.receivers.length = i := by
      unfold insertPos
      split
      · omega
      · omega
    simp [Signal.insert, hc, hb, hpos]

/-- Witness for C7: a concrete program with three insertions and one
deletion, and concrete delete/insert shifts. -/
theorem list_ops_length_and_shifts_witness :
    (Signal.mk ["name", "value"] [recvA, recvB]).receivers.length +
        countDel opsAID = countIns opsAID ∧
    sigNV.delitem 0 = .ok ⟨sigNV.parameters,
      sigNV.receivers.take 0 ++ sigNV.receivers.drop 1⟩ ∧
    sigNV.insert true 0 recvA = .ok ⟨sigNV.parameters,
      sigNV.receivers.take 0 ++ recvA :: sigNV.receivers.drop 0⟩ :=
  ⟨(list_ops_length_and_shifts true ["name", "value"] opsAID
      (Signal.mk ["name", "value"] [recvA, recvB]) sigNV 0 recvA).1
      (by decide) rfl,
   (list_ops_length_and_shifts true ["name", "value"] opsAID
      (Signal.mk ["name", "value"] [recvA, recvB]) sigNV 0 recvA).2.1
      (by decide),
   (list_ops_length_and_shifts true ["name", "value"] opsAID
      (Signal.mk ["name", "value"] [recvA, recvB]) sigNV 0 recvA).2.2
      (by decide) rfl (by decide)⟩

theorem applyOp_parameters (debug : Bool) (s : Signal) (op : Op) (t : Signal)
    (h : applyOp debug s op = .ok t) : t.parameters = s.parameters := by
  cases op with
  | appendOp r =>
    simp only [applyOp, Signal.append] at h
    split at h
    · exact Except.noConfusion h
    · split at h
      · exact Except.noConfusion h
      · cases h; rfl
  | insertOp i r =>
    simp only [applyOp, Signal.insert] at h
    split at h
    · exact Except.noConfusion h
    · split at h
      · exact Except.noConfusion h
      · cases h; rfl
  | setOp i r =>
    simp only [applyOp, Signal.setitem] at h
    split at h
    · exact Except.noConfusion h
    · split at h
      · exact Except.noConfusion h
      · split at h
        · cases h; rfl
        · exact Except.noConfusion h
  | delOp i =>
    simp only [applyOp, Signal.delitem] at h
    split at h
    · cases h; rfl
    · exact Except.noConfusion h
  | clearOp =>
    simp only [applyOp, Signal.clear] at h
    cases h; rfl
  | getOp i =>
    simp only [applyOp] at h
    split at h
    · cases h; rfl
    · exact Except.noConfusion h
  | sendOp kw =>
    simp only [applyOp] at h
    split at h
    · cases h; rfl
    · exact Except.noConfusion h

theorem runOps_parameters (debug : Bool) (ops : List Op) :
    ∀ s t : Signal, runOps debug s ops = .ok t → t.parameters = s.parameters := by
  induction ops with
  | nil =>
    intro s t h
    simp only [runOps] at h
    cases h; rfl
  | cons op ops ih =>
    intro s t h
    simp only [runOps] at h
    cases hop : applyOp debug s op with
    | error e => rw [hop] at h; exact Except.noConfusion h
    | ok s1 =>
      rw [hop] at h
      rw [ih s1 t h, applyOp_parameters debug s op s1 hop]

/-- C8: the recognized parameter set fixed at construction is never changed:
after any straight-line program of `Append`, `Insert`, `Set`, `Delete`,
`Clear`, `Get` and `Send` operations run from `Signal(parameters)`, the
stored parameter set still equals the deduplicated set supplied at
construction (`send` and the read operations only inspect the receiver
list, and every mutation rebuilds the state with the same `parameters`). -/
theorem parameters_fixed_after_construction (debug : Bool) (ps : List String)
    (ops : List Op) (t : Signal)
    (h : runOps debug (Signal.new ps) ops = .ok t) :
    t.parameters = ps.dedup :=
  (runOps_parameters debug ops (Signal.new ps) t h).trans rfl

/-- Witness for C8 over a program exercising append, send, get, set and
clear. -/
theorem parameters_fixed_after_construction_witness :
    (Signal.mk ["name", "value"] [] : Signal).parameters =
      (["name", "value"]).dedup :=
  parameters_fixed_after_construction true ["name", "value"] opsMixed
    (Signal.mk ["name", "value"] []) rfl

/-- C9: whenever `Set(i, r)` succeeds (so `i` was a valid index and `r`
passed registration validation), `Get(i)` on the resulting signal returns
`r`, the length is unchanged, and every position other than the normalized
index holds the same receiver as before. -/
theorem set_get_roundtrip (s : Signal) (i : Int) (r : Receiver) (t : Signal)
    (h : s.setitem true i r = .ok t) :
    t.getitem i = .ok r ∧
    t.receivers.length = s.receivers.length ∧
    (∀ j : Nat, (j : Int) ≠ normIdx i s.receivers.length →
      t.receivers.get? j = s.receivers.get? j) := by
  simp only [Signal.setitem] at h
  split at h
  · exact Except.noConfusion h
  · split at h
    · exact Except.noConfusion h
    · split at h
      case isTrue hg =>
        obtain ⟨hg1, hg2⟩ := hg
        cases h
        refine ⟨?_, ?_, ?_⟩
        · have hKlt : (normIdx i s.receivers.length).toNat < s.receivers.length := by
            omega
          simp only [Signal.getitem, List.length_set]
          rw [if_pos hg1, List.get?_set_eq_of_lt r hKlt]
        · simp [List.length_set]
        · intro j hj
          have hKne : (normIdx i s.receivers.length).toNat ≠ j := by omega
          exact List.get?_set_ne r s.receivers hKne
      case isFalse => exact Except.noConfusion h

/-- Witness for C9: set index 1 of a two-receiver signal to `recvA`, then
read it back; index 0 is untouched. -/
theorem set_get_roundtrip_witness :
    (Signal.mk ["name", "value"] [recvA, recvA]).getitem 1 = .ok recvA ∧
    (Signal.mk ["name", "value"] [recvA, recvA]).receivers.length =
      sigNV.receivers.length ∧
    (Signal.mk ["name", "value"] [recvA, recvA]).receivers.get? 0 =
      sigNV.receivers.get? 0 :=
  ⟨(set_get_roundtrip sigNV 1 recvA
      (Signal.mk ["name", "value"] [recvA, recvA]) rfl).1,
   (set_get_roundtrip sigNV 1 recvA
      (Signal.mk ["name", "value"] [recvA, recvA]) rfl).2.1,
   (set_get_roundtrip sigNV 1 recvA
      (Signal.mk ["name", "value"] [recvA, recvA]) rfl).2.2 0 (by decide)⟩

/-- C10: for a receiver passing validation, `Insert` succeeds at every
integer index and grows the sequence by one: an index beyond the current
length clamps to the end, a negative index counting back past the start
clamps to the start; in contrast `Get` and `Delete` raise an out-of-range
error at every index that is invalid after normalization. -/
theorem insert_never_out_of_range (s : Signal) (i : Int) (r : Receiver)
    (h1 : r.isCoroutineFunction = false) (h2 : bindOk r s.parameters = true) :
    (s.insert true i r = .ok ⟨s.parameters,
      s.receivers.take (insertPos i s.receivers.length) ++
        r :: s.receivers.drop (insertPos i s.receivers.length)⟩) ∧
    (∀ t : Signal, s.insert true i r = .ok t →
      t.receivers.length = s.receivers.length + 1) ∧
    ((s.receivers.length : Int) < i →
      insertPos i s.receivers.length = s.receivers.length) ∧
    (i + (s.receivers.length : Int) < 0 →
      insertPos i s.receivers.length = 0) ∧
    (validIdx i s.receivers.length = false →
      s.getitem i = .error .IndexOutOfRange ∧
      s.delitem i = .error .IndexOutOfRange) := by
  refine ⟨?_, ?_, ?_, ?_, ?_⟩
  · simp [Signal.insert, h1, h2]
  · intro t ht
    have hr := insert_ok_receivers s true i r t ht
    rw [hr]
    exact insert_shape_length _ _ _ (insertPos_le i s.receivers.length)
  · intro hgt
    unfold insertPos
    split
    · omega
    · omega
  · intro hneg
    unfold insertPos
    split
    · omega
    · omega
  · intro hv
    have hv' : ¬(0 ≤ normIdx i s.receivers.length ∧
        normIdx i s.receivers.length < (s.receivers.length : Int)) := by
      simpa [validIdx, decide_eq_false_iff_not] using hv
    constructor
    · simp only [Signal.getitem]
      by_cases h0 : 0 ≤ normIdx i s.receivers.length
      · rw [if_pos h0]
        have hge : s.receivers.length ≤ (normIdx i s.receivers.length).toNat := by
          rcases not_and_or.mp hv' with hc | hc
          · exact absurd h0 hc
          · omega
        rw [List.get?_eq_none.mpr hge]
      · rw [if_neg h0]
    · simp only [Signal.delitem]
      rw [if_neg hv']

/-- Witness for C10: index 100 of a two-receiver signal clamps `Insert` to
the end while `Get` and `Delete` raise out-of-range; index -100 clamps to
the start. -/
theorem insert_never_out_of_range_witness :
    sigNV.insert true 100 recvA = .ok ⟨sigNV.parameters,
      sigNV.receivers.take (insertPos 100 sigNV.receivers.length) ++
        recvA :: sigNV.receivers.drop (insertPos 100 sigNV.receivers.length)⟩ ∧
    insertPos 100 sigNV.receivers.length = sigNV.receivers.length ∧
    insertPos (-100) sigNV.receivers.length = 0 ∧
    sigNV.getitem 100 = .error .IndexOutOfRange ∧
    sigNV.delitem 100 = .error .IndexOutOfRange :=
  ⟨(insert_never_out_of_range sigNV 100 recvA rfl (by decide)).1,
   (insert_never_out_of_range sigNV 100 recvA rfl (by decide)).2.2.1 (by decide),
   (insert_never_out_of_range sigNV (-100) recvA rfl (by decide)).2.2.2.1
     (by decide),
   ((insert_never_out_of_range sigNV 100 recvA rfl (by decide)).2.2.2.2
     (by decide)).1,
   ((insert_never_out_of_range sigNV 100 recvA rfl (by decide)).2.2.2.2
     (by decide)).2⟩
